import Mathlib

/-! # go-pg-controldata: reading PostgreSQL's `global/pg_control`

A shallow embedding of `controldata.go`.

* `DBState.String` is the `switch` of the source, on Go's `int` (an `Int` here).
* `ControlFileData` and `CheckPoint` are the two structs of the source.  The
  source overlays the struct on a byte array of `unsafe.Sizeof(controlfile)`
  bytes and lets `os.File.Read` fill it, so the embedding keeps the struct's
  memory as a list of bytes and reads every field at its offset, in the
  native byte order of the 64-bit little-endian platforms Go lays the struct
  out for (`int` is 8 bytes, alignment equals the width of a basic type).
* `Get` is the function of the source, with the operating system it talks to
  (`filepath.Join`, `os.Open`, `os.File.Read`) passed explicitly as a `Sys`.
-/

namespace controldata

/-! ## Bytes and machine integers -/

/-- One byte of memory or of a file. -/
abbrev Byte := Fin 256

/-- Value of a byte string read as an unsigned integer, least significant byte first. -/
def leNat : List Byte → Nat
  | [] => 0
  | b :: bs => b.val + 256 * leNat bs

/-- The `w` bytes of `v mod 256^w`, least significant byte first: what a
little-endian writer stores for an unsigned field of width `w`. -/
def leBytes : Nat → Nat → List Byte
  | 0, _ => []
  | w + 1, v => ⟨v % 256, Nat.mod_lt v (by decide)⟩ :: leBytes w (v / 256)

/-- The `w` bytes a little-endian writer stores for the signed value `s`
(two's complement). -/
def leBytesInt (w : Nat) (s : Int) : List Byte :=
  leBytes w (s % (256 ^ w : Nat)).toNat

/-- The `w` bytes of memory `mem` starting at offset `off`. -/
def field (mem : List Byte) (off w : Nat) : List Byte :=
  (mem.drop off).take w

/-- A `uint32` field at offset `off`. -/
def u32At (mem : List Byte) (off : Nat) : Nat :=
  leNat (field mem off 4)

/-- A `uint64` field at offset `off`. -/
def u64At (mem : List Byte) (off : Nat) : Nat :=
  leNat (field mem off 8)

/-- An `int64` (or 64-bit `int`) field at offset `off`, two's complement. -/
def i64At (mem : List Byte) (off : Nat) : Int :=
  let u := u64At mem off
  if u < 2 ^ 63 then (u : Int) else (u : Int) - 2 ^ 64

/-- A `bool` field at offset `off`: true when its byte is not zero. -/
def boolAt (mem : List Byte) (off : Nat) : Bool :=
  leNat (field mem off 1) != 0

/-! ## `DBState` -/

/-- Go's `type DBState int`. -/
abbrev DBState := Int

def DBStartup : DBState := 0
def DBShutdowned : DBState := 1
def DBShutdownedInRecovery : DBState := 2
def DBShutdowning : DBState := 3
def DBInCrashRecovery : DBState := 4
def DBInArchiveRecovery : DBState := 5
def DBInProduction : DBState := 6

/-- The method `func (s DBState) String() string`. -/
def DBState.String (s : DBState) : String :=
  if s = DBStartup then "starting up"
  else if s = DBShutdowned then "shut down"
  else if s = DBShutdownedInRecovery then "shut down in recovery"
  else if s = DBShutdowning then "shutting down"
  else if s = DBInCrashRecovery then "in crash recovery"
  else if s = DBInArchiveRecovery then "in archive recovery"
  else if s = DBInProduction then "in production"
  else "unrecognized status code"

/-! ## Struct layout -/

/-- A field of a struct declaration: its name, width and alignment in bytes. -/
structure FieldDecl where
  name : String
  size : Nat
  align : Nat
deriving DecidableEq

/-- The least multiple of `a` that is at least `off`. -/
def alignUp (off a : Nat) : Nat :=
  (off + a - 1) / a * a

/-- Offsets of the fields, laid out in declaration order from offset `off`,
each at the next offset that is a multiple of its alignment. -/
def layoutFrom : Nat → List FieldDecl → List (String × Nat)
  | _, [] => []
  | off, f :: fs => (f.name, alignUp off f.align) :: layoutFrom (alignUp off f.align + f.size) fs

/-- The offset just past the last field. -/
def layoutEnd : Nat → List FieldDecl → Nat
  | off, [] => off
  | off, f :: fs => layoutEnd (alignUp off f.align + f.size) fs

/-- Alignment of a struct: the largest alignment of its fields. -/
def structAlign (fs : List FieldDecl) : Nat :=
  fs.foldl (fun a f => max a f.align) 1

/-- Size of a struct: the end of its last field, rounded up to its alignment. -/
def structSize (fs : List FieldDecl) : Nat :=
  alignUp (layoutEnd 0 fs) (structAlign fs)

/-- A field of a basic type, whose alignment is its width. -/
def basic (name : String) (size : Nat) : FieldDecl :=
  ⟨name, size, size⟩

/-- The declaration of `type CheckPoint struct`. -/
def checkPointFields : List FieldDecl :=
  [ basic "Redo" 8,
    basic "ThisTimeLineID" 4,
    basic "PrevTimeLineID" 4,
    basic "FullPageWrites" 1,
    basic "NextXid" 8,
    basic "NextOid" 4,
    basic "NextMulti" 4,
    basic "NextMultiOffset" 4,
    basic "OldestXid" 4,
    basic "OldestXidDB" 4,
    basic "OldestMulti" 4,
    basic "OldestMultiDB" 4,
    basic "Time" 8,
    basic "OldestCommitTsXid" 4,
    basic "NewestCommitTsXid" 4,
    basic "OldestActiveXid" 4 ]

/-- The declaration of `type ControlFileData struct`. -/
def controlFileDataFields : List FieldDecl :=
  [ basic "SystemID" 8,
    basic "PgControlVersion" 4,
    basic "CatalogVersionNo" 4,
    basic "State" 8,
    basic "Time" 8,
    basic "CheckPoint" 8,
    ⟨"CheckPointCopy", structSize checkPointFields, structAlign checkPointFields⟩,
    basic "UnloggedLSN" 8,
    basic "MinRecoveryPoint" 8,
    basic "MinRecoveryPointTLI" 4,
    basic "BackupStartPoint" 8,
    basic "BackupEndPoint" 8,
    basic "BackupEndRequired" 1,
    basic "WalLevel" 8,
    basic "WalLogHints" 1,
    basic "MaxConnections" 8,
    basic "MaxWorkerProcesses" 8,
    basic "MaxWalSenders" 8,
    basic "MaxPreparedXacts" 8,
    basic "MaxLocksPerXact" 8,
    basic "TrackCommitTimestamp" 1,
    basic "MaxAlign" 4,
    basic "FloatFormat" 8,
    basic "Blcksz" 4,
    basic "RelsegSize" 4,
    basic "XlogBlcksz" 4,
    basic "XlogSegSize" 4,
    basic "NameDataLen" 4,
    basic "IndexMaxKeys" 4,
    basic "ToastMaxChunkSize" 4,
    basic "Loblksize" 4,
    basic "Float4ByVal" 1,
    basic "Float8ByVal" 1,
    basic "DataChecksumVersion" 4 ]

/-- The value of `unsafe.Sizeof(controlfile)`. -/
def sizeofControlFileData : Nat :=
  structSize controlFileDataFields

/-! ## The two structs -/

/-- The struct `CheckPoint`. -/
structure CheckPoint where
  Redo : Nat
  ThisTimeLineID : Nat
  PrevTimeLineID : Nat
  FullPageWrites : Bool
  NextXid : Nat
  NextOid : Nat
  NextMulti : Nat
  NextMultiOffset : Nat
  OldestXid : Nat
  OldestXidDB : Nat
  OldestMulti : Nat
  OldestMultiDB : Nat
  Time : Int
  OldestCommitTsXid : Nat
  NewestCommitTsXid : Nat
  OldestActiveXid : Nat
deriving DecidableEq

/-- The struct `ControlFileData`.  `FloatFormat` holds the 64 bits of the
`float64` as an unsigned integer. -/
structure ControlFileData where
  SystemID : Nat
  PgControlVersion : Nat
  CatalogVersionNo : Nat
  State : DBState
  Time : Int
  CheckPoint : Nat
  CheckPointCopy : controldata.CheckPoint
  UnloggedLSN : Nat
  MinRecoveryPoint : Nat
  MinRecoveryPointTLI : Nat
  BackupStartPoint : Nat
  BackupEndPoint : Nat
  BackupEndRequired : Bool
  WalLevel : Int
  WalLogHints : Bool
  MaxConnections : Int
  MaxWorkerProcesses : Int
  MaxWalSenders : Int
  MaxPreparedXacts : Int
  MaxLocksPerXact : Int
  TrackCommitTimestamp : Bool
  MaxAlign : Nat
  FloatFormat : Nat
  Blcksz : Nat
  RelsegSize : Nat
  XlogBlcksz : Nat
  XlogSegSize : Nat
  NameDataLen : Nat
  IndexMaxKeys : Nat
  ToastMaxChunkSize : Nat
  Loblksize : Nat
  Float4ByVal : Bool
  Float8ByVal : Bool
  DataChecksumVersion : Nat
deriving DecidableEq

/-- The `CheckPoint` whose memory starts at offset `base` of `mem`. -/
def CheckPoint.ofMem (mem : List Byte) (base : Nat) : CheckPoint where
  Redo := u64At mem base
  ThisTimeLineID := u32At mem (base + 8)
  PrevTimeLineID := u32At mem (base + 12)
  FullPageWrites := boolAt mem (base + 16)
  NextXid := u64At mem (base + 24)
  NextOid := u32At mem (base + 32)
  NextMulti := u32At mem (base + 36)
  NextMultiOffset := u32At mem (base + 40)
  OldestXid := u32At mem (base + 44)
  OldestXidDB := u32At mem (base + 48)
  OldestMulti := u32At mem (base + 52)
  OldestMultiDB := u32At mem (base + 56)
  Time := i64At mem (base + 64)
  OldestCommitTsXid := u32At mem (base + 72)
  NewestCommitTsXid := u32At mem (base + 76)
  OldestActiveXid := u32At mem (base + 80)

/-- The `ControlFileData` whose memory is `mem`: the struct the source reads
through `unsafe.Pointer(&controlfile)`. -/
def ControlFileData.ofMem (mem : List Byte) : ControlFileData where
  SystemID := u64At mem 0
  PgControlVersion := u32At mem 8
  CatalogVersionNo := u32At mem 12
  State := i64At mem 16
  Time := i64At mem 24
  CheckPoint := u64At mem 32
  CheckPointCopy := CheckPoint.ofMem mem 40
  UnloggedLSN := u64At mem 128
  MinRecoveryPoint := u64At mem 136
  MinRecoveryPointTLI := u32At mem 144
  BackupStartPoint := u64At mem 152
  BackupEndPoint := u64At mem 160
  BackupEndRequired := boolAt mem 168
  WalLevel := i64At mem 176
  WalLogHints := boolAt mem 184
  MaxConnections := i64At mem 192
  MaxWorkerProcesses := i64At mem 200
  MaxWalSenders := i64At mem 208
  MaxPreparedXacts := i64At mem 216
  MaxLocksPerXact := i64At mem 224
  TrackCommitTimestamp := boolAt mem 232
  MaxAlign := u32At mem 236
  FloatFormat := u64At mem 240
  Blcksz := u32At mem 248
  RelsegSize := u32At mem 252
  XlogBlcksz := u32At mem 256
  XlogSegSize := u32At mem 260
  NameDataLen := u32At mem 264
  IndexMaxKeys := u32At mem 268
  ToastMaxChunkSize := u32At mem 272
  Loblksize := u32At mem 276
  Float4ByVal := boolAt mem 280
  Float8ByVal := boolAt mem 281
  DataChecksumVersion := u32At mem 284

/-! ## The operating system -/

/-- An error value made by the `os` package (a failed `open` or `read`). -/
structure OsError where
  msg : String
deriving DecidableEq

/-- The error values `Get` can hand to its caller. -/
inductive GoError where
  /-- an error of the `os` package, passed on as it came -/
  | os (e : OsError)
  /-- the value `io.EOF` -/
  | eof
  /-- a value made by `errors.New(msg)` -/
  | errorsNew (msg : String)
deriving DecidableEq

/-- What a path names: the bytes of the file, and the error `read` reports
on it when it cannot be read (a directory, a failing disk). -/
structure Inode where
  data : List Byte
  fault : Option OsError
deriving DecidableEq

/-- The operating system as `Get` sees it. -/
structure Sys where
  /-- the function `filepath.Join` -/
  Join : List String → String
  /-- what opening a path for reading finds -/
  lookup : String → Except OsError Inode

/-- An open file: `*os.File`. -/
structure File where
  data : List Byte
  off : Nat
  fault : Option OsError
deriving DecidableEq

/-- The call `os.Open(name)`: a read-only handle positioned at offset 0. -/
def Sys.Open (sys : Sys) (name : String) : Except OsError File :=
  match sys.lookup name with
  | .error e => .error e
  | .ok i => .ok ⟨i.data, 0, i.fault⟩

/-- What `f.Read(b)` leaves behind: the slice `b` after the call, the two
results `n` and `err`, and the file with its offset advanced. -/
structure ReadResult where
  b : List Byte
  n : Nat
  err : Option GoError
  file : File

/-- The call `f.Read(b)` of `os.File`: reads up to `len(b)` bytes into the
front of `b`; at end of file it returns `0, io.EOF`; a failed read returns
`0` and the error. -/
def File.Read (f : File) (b : List Byte) : ReadResult :=
  match f.fault with
  | some e => ⟨b, 0, some (.os e), f⟩
  | none =>
    if b.length = 0 then ⟨b, 0, none, f⟩
    else
      let chunk := (f.data.drop f.off).take b.length
      if chunk.length = 0 then ⟨b, 0, some .eof, f⟩
      else ⟨chunk ++ b.drop chunk.length, chunk.length, none,
            ⟨f.data, f.off + chunk.length, f.fault⟩⟩

/-! ## `Get` -/

/-- The error of the byte-order check. -/
def errByteOrder : GoError :=
  .errorsNew "not valid byte order"

/-- The function `Get` of the source, returning Go's pair of a pointer (or
nil) and an error (or nil), together with the file handle as it is when the
deferred `Close` runs (`none` when `os.Open` failed). -/
def GetSt (sys : Sys) (pgdata : String) :
    (Option ControlFileData × Option GoError) × Option File :=
  match sys.Open (sys.Join [pgdata, "global", "pg_control"]) with
  | .error e => ((none, some (.os e)), none)
  | .ok pgControl =>
    -- var controlfile ControlFileData
    let controlfile : List Byte := List.replicate sizeofControlFileData 0
    let r := pgControl.Read controlfile
    match r.err with
    | some err => ((none, some err), some r.file)
    | none =>
      let cf := ControlFileData.ofMem r.b
      if cf.PgControlVersion % 65536 = 0 ∧ cf.PgControlVersion / 65536 ≠ 0 then
        ((none, some errByteOrder), some r.file)
      else
        ((some cf, none), some r.file)

/-- The two results of `Get(pgdata)`. -/
def Get (sys : Sys) (pgdata : String) : Option ControlFileData × Option GoError :=
  (GetSt sys pgdata).1

/-- The file `global/pg_control` under `pgdata` opens and holds exactly the
bytes `buf`, all of them readable. -/
def Sys.holds (sys : Sys) (pgdata : String) (buf : List Byte) : Prop :=
  sys.lookup (sys.Join [pgdata, "global", "pg_control"]) = .ok ⟨buf, none⟩

/-- A system in which every path names a readable file with the bytes `buf`. -/
def sysOf (buf : List Byte) : Sys where
  Join := fun parts => "/".intercalate parts
  lookup := fun _ => .ok ⟨buf, none⟩

/-- The struct's memory once `Read` has filled it from a non-empty file
holding `buf`: the bytes read, then what is left of the zeroed struct. -/
def memOf (buf : List Byte) : List Byte :=
  buf.take sizeofControlFileData ++
    (List.replicate sizeofControlFileData (0 : Byte)).drop (buf.take sizeofControlFileData).length

/-- A full-size buffer with version `V` and state `s` written by a
little-endian writer, every other byte zero. -/
def bufWith (V : Nat) (s : Int) : List Byte :=
  List.replicate 8 0 ++ leBytes 4 V ++ List.replicate 4 0 ++ leBytesInt 8 s ++
    List.replicate 264 0

/-- A system in which no path can be opened: every `open` fails with `e`. -/
def sysMissing (e : OsError) : Sys where
  Join := fun parts => "/".intercalate parts
  lookup := fun _ => .error e

/-! ## Where the fields lie in memory -/

/-- The place of a field in memory: its name, its first byte and its width. -/
structure Slot where
  name : String
  off : Nat
  size : Nat
deriving DecidableEq

/-- The places of the fields laid out from offset `off`, as `layoutFrom`
places them, together with their widths. -/
def slotsFrom : Nat → List FieldDecl → List Slot
  | _, [] => []
  | off, f :: fs =>
    ⟨f.name, alignUp off f.align, f.size⟩ :: slotsFrom (alignUp off f.align + f.size) fs

/-- The places of all fields of basic type in a `ControlFileData`: the fields
of the struct in declaration order, with `CheckPointCopy` replaced by the
fields of `CheckPoint` at their own offsets inside it. -/
def leafSlots : List Slot :=
  (slotsFrom 0 controlFileDataFields).flatMap fun s =>
    if s.name = "CheckPointCopy" then
      (slotsFrom 0 checkPointFields).map fun t =>
        ⟨"CheckPointCopy." ++ t.name, s.off + t.off, t.size⟩
    else [s]

/-- The fields of `ControlFileData` and of its nested `CheckPoint` in one
list, in declaration order, each aligned to its own width. -/
def flatFields : List FieldDecl :=
  controlFileDataFields.flatMap fun f =>
    if f.name = "CheckPointCopy" then
      checkPointFields.map fun g => basic ("CheckPointCopy." ++ g.name) g.size
    else [basic f.name f.size]

/-- The layout in the words of the specification: the fields of
`ControlFileData` and its nested `CheckPoint` in declaration order, each at
the next offset aligned to its own width. -/
def specLayout : List Slot :=
  slotsFrom 0 flatFields

/-- The offset the layout of the declaration `fs` gives the field `name`. -/
def offsetOf (fs : List FieldDecl) (name : String) : Nat :=
  ((layoutFrom 0 fs).lookup name).getD 0

/-- The width the declaration `fs` gives the field `name`. -/
def widthOf (fs : List FieldDecl) (name : String) : Nat :=
  ((fs.map fun f => (f.name, f.size)).lookup name).getD 0

/-- The bytes of the field `name` of a struct declared by `fs` whose memory
starts at offset `base` of `mem`: its whole byte range and nothing else. -/
def bytesOf (mem : List Byte) (base : Nat) (fs : List FieldDecl) (name : String) : List Byte :=
  field mem (base + offsetOf fs name) (widthOf fs name)

/-- An unsigned field, read over its declared byte range. -/
def uintOf (mem : List Byte) (base : Nat) (fs : List FieldDecl) (name : String) : Nat :=
  leNat (bytesOf mem base fs name)

/-- A signed field, read over its declared byte range, two's complement. -/
def intOf (mem : List Byte) (base : Nat) (fs : List FieldDecl) (name : String) : Int :=
  let u := uintOf mem base fs name
  if u < 2 ^ (8 * widthOf fs name - 1) then (u : Int) else (u : Int) - 2 ^ (8 * widthOf fs name)

/-- A `bool` field, read over its declared byte range. -/
def boolOf (mem : List Byte) (base : Nat) (fs : List FieldDecl) (name : String) : Bool :=
  leNat (bytesOf mem base fs name) != 0

/-- The `CheckPoint` at offset `base` of `mem`, every field read over the byte
range the layout of `checkPointFields` gives it. -/
def CheckPoint.ofLayout (mem : List Byte) (base : Nat) : CheckPoint where
  Redo := uintOf mem base checkPointFields "Redo"
  ThisTimeLineID := uintOf mem base checkPointFields "ThisTimeLineID"
  PrevTimeLineID := uintOf mem base checkPointFields "PrevTimeLineID"
  FullPageWrites := boolOf mem base checkPointFields "FullPageWrites"
  NextXid := uintOf mem base checkPointFields "NextXid"
  NextOid := uintOf mem base checkPointFields "NextOid"
  NextMulti := uintOf mem base checkPointFields "NextMulti"
  NextMultiOffset := uintOf mem base checkPointFields "NextMultiOffset"
  OldestXid := uintOf mem base checkPointFields "OldestXid"
  OldestXidDB := uintOf mem base checkPointFields "OldestXidDB"
  OldestMulti := uintOf mem base checkPointFields "OldestMulti"
  OldestMultiDB := uintOf mem base checkPointFields "OldestMultiDB"
  Time := intOf mem base checkPointFields "Time"
  OldestCommitTsXid := uintOf mem base checkPointFields "OldestCommitTsXid"
  NewestCommitTsXid := uintOf mem base checkPointFields "NewestCommitTsXid"
  OldestActiveXid := uintOf mem base checkPointFields "OldestActiveXid"

/-- The `ControlFileData` in `mem`, every field read over the byte range the
layout of `controlFileDataFields` gives it. -/
def ControlFileData.ofLayout (mem : List Byte) : ControlFileData where
  SystemID := uintOf mem 0 controlFileDataFields "SystemID"
  PgControlVersion := uintOf mem 0 controlFileDataFields "PgControlVersion"
  CatalogVersionNo := uintOf mem 0 controlFileDataFields "CatalogVersionNo"
  State := intOf mem 0 controlFileDataFields "State"
  Time := intOf mem 0 controlFileDataFields "Time"
  CheckPoint := uintOf mem 0 controlFileDataFields "CheckPoint"
  CheckPointCopy := CheckPoint.ofLayout mem (offsetOf controlFileDataFields "CheckPointCopy")
  UnloggedLSN := uintOf mem 0 controlFileDataFields "UnloggedLSN"
  MinRecoveryPoint := uintOf mem 0 controlFileDataFields "MinRecoveryPoint"
  MinRecoveryPointTLI := uintOf mem 0 controlFileDataFields "MinRecoveryPointTLI"
  BackupStartPoint := uintOf mem 0 controlFileDataFields "BackupStartPoint"
  BackupEndPoint := uintOf mem 0 controlFileDataFields "BackupEndPoint"
  BackupEndRequired := boolOf mem 0 controlFileDataFields "BackupEndRequired"
  WalLevel := intOf mem 0 controlFileDataFields "WalLevel"
  WalLogHints := boolOf mem 0 controlFileDataFields "WalLogHints"
  MaxConnections := intOf mem 0 controlFileDataFields "MaxConnections"
  MaxWorkerProcesses := intOf mem 0 controlFileDataFields "MaxWorkerProcesses"
  MaxWalSenders := intOf mem 0 controlFileDataFields "MaxWalSenders"
  MaxPreparedXacts := intOf mem 0 controlFileDataFields "MaxPreparedXacts"
  MaxLocksPerXact := intOf mem 0 controlFileDataFields "MaxLocksPerXact"
  TrackCommitTimestamp := boolOf mem 0 controlFileDataFields "TrackCommitTimestamp"
  MaxAlign := uintOf mem 0 controlFileDataFields "MaxAlign"
  FloatFormat := uintOf mem 0 controlFileDataFields "FloatFormat"
  Blcksz := uintOf mem 0 controlFileDataFields "Blcksz"
  RelsegSize := uintOf mem 0 controlFileDataFields "RelsegSize"
  XlogBlcksz := uintOf mem 0 controlFileDataFields "XlogBlcksz"
  XlogSegSize := uintOf mem 0 controlFileDataFields "XlogSegSize"
  NameDataLen := uintOf mem 0 controlFileDataFields "NameDataLen"
  IndexMaxKeys := uintOf mem 0 controlFileDataFields "IndexMaxKeys"
  ToastMaxChunkSize := uintOf mem 0 controlFileDataFields "ToastMaxChunkSize"
  Loblksize := uintOf mem 0 controlFileDataFields "Loblksize"
  Float4ByVal := boolOf mem 0 controlFileDataFields "Float4ByVal"
  Float8ByVal := boolOf mem 0 controlFileDataFields "Float8ByVal"
  DataChecksumVersion := uintOf mem 0 controlFileDataFields "DataChecksumVersion"

/-! ## Basic facts -/

set_option maxRecDepth 4096 in
theorem sizeofControlFileData_eq : sizeofControlFileData = 288 := by
  decide

theorem leNat_leBytes (w v : Nat) : leNat (leBytes w v) = v % 256 ^ w := by
  induction w generalizing v with
  | zero => simp [leBytes, leNat, Nat.mod_one]
  | succ w ih =>
    simp only [leBytes, leNat, ih]
    rw [pow_succ', Nat.mod_mul]

theorem length_leBytes (w v : Nat) : (leBytes w v).length = w := by
  induction w generalizing v with
  | zero => rfl
  | succ w ih => simp [leBytes, ih]

/-- The result of `Read` on a freshly opened, readable, non-empty file. -/
theorem Read_fresh (buf b : List Byte) (hb : b.length ≠ 0) (hbuf : buf ≠ []) :
    File.Read ⟨buf, 0, none⟩ b =
      ⟨buf.take b.length ++ b.drop (buf.take b.length).length, (buf.take b.length).length,
        none, ⟨buf, 0 + (buf.take b.length).length, none⟩⟩ := by
  have h : (buf.take b.length).length ≠ 0 := by
    cases buf with
    | nil => exact absurd rfl hbuf
    | cons x xs =>
      cases b with
      | nil => exact absurd rfl hb
      | cons y ys => simp
  simp [File.Read, hb, h, hbuf]

theorem replicate_sizeof_length_ne_zero :
    (List.replicate sizeofControlFileData (0 : Byte)).length ≠ 0 := by
  rw [List.length_replicate, sizeofControlFileData_eq]
  decide

/-- What `GetSt` computes on a non-empty readable control file. -/
theorem GetSt_of_holds (sys : Sys) (pgdata : String) (buf : List Byte)
    (h : sys.holds pgdata buf) (hbuf : buf ≠ []) :
    GetSt sys pgdata =
      if (ControlFileData.ofMem (memOf buf)).PgControlVersion % 65536 = 0 ∧
          (ControlFileData.ofMem (memOf buf)).PgControlVersion / 65536 ≠ 0 then
        ((none, some errByteOrder),
          some ⟨buf, 0 + (buf.take sizeofControlFileData).length, none⟩)
      else
        ((some (ControlFileData.ofMem (memOf buf)), none),
          some ⟨buf, 0 + (buf.take sizeofControlFileData).length, none⟩) := by
  unfold Sys.holds at h
  have hr := Read_fresh buf (List.replicate sizeofControlFileData (0 : Byte))
    replicate_sizeof_length_ne_zero hbuf
  rw [List.length_replicate] at hr
  simp only [GetSt, Sys.Open, h, hr, memOf]

/-- What `Get` returns on a non-empty readable control file. -/
theorem Get_of_holds (sys : Sys) (pgdata : String) (buf : List Byte)
    (h : sys.holds pgdata buf) (hbuf : buf ≠ []) :
    Get sys pgdata =
      if (ControlFileData.ofMem (memOf buf)).PgControlVersion % 65536 = 0 ∧
          (ControlFileData.ofMem (memOf buf)).PgControlVersion / 65536 ≠ 0 then
        (none, some errByteOrder)
      else (some (ControlFileData.ofMem (memOf buf)), none) := by
  rw [Get, GetSt_of_holds sys pgdata buf h hbuf]
  split <;> rfl

/-- A buffer of the record's size fills the struct's memory entirely. -/
theorem memOf_full (buf : List Byte) (h : buf.length = sizeofControlFileData) :
    memOf buf = buf := by
  unfold memOf
  rw [List.take_of_length_le (le_of_eq h), h]
  simp

theorem ne_nil_of_full (buf : List Byte) (h : buf.length = sizeofControlFileData) :
    buf ≠ [] := by
  intro hnil
  rw [hnil, sizeofControlFileData_eq] at h
  exact absurd h (by decide)

/-- What `Get` returns on a readable control file of exactly the record's size. -/
theorem Get_full (sys : Sys) (pgdata : String) (buf : List Byte)
    (h : sys.holds pgdata buf) (hlen : buf.length = sizeofControlFileData) :
    Get sys pgdata =
      if u32At buf 8 % 65536 = 0 ∧ u32At buf 8 / 65536 ≠ 0 then (none, some errByteOrder)
      else (some (ControlFileData.ofMem buf), none) := by
  rw [Get_of_holds sys pgdata buf h (ne_nil_of_full buf hlen), memOf_full buf hlen]
  rfl

/-- The version field of a buffer that stores `V` little-endian. -/
theorem u32At_of_enc (buf : List Byte) (off V : Nat) (hV : V < 2 ^ 32)
    (henc : field buf off 4 = leBytes 4 V) : u32At buf off = V := by
  rw [u32At, henc, leNat_leBytes]
  exact Nat.mod_eq_of_lt hV

/-- The state field of a buffer that stores `s` in two's complement, little-endian. -/
theorem i64At_of_enc (buf : List Byte) (off : Nat) (s : Int)
    (hs : -2 ^ 63 ≤ s ∧ s < 2 ^ 63) (henc : field buf off 8 = leBytesInt 8 s) :
    i64At buf off = s := by
  unfold i64At u64At
  rw [henc, leBytesInt, leNat_leBytes]
  obtain ⟨h1, h2⟩ := hs
  norm_num at h1 h2 ⊢
  omega

/-- The value a reader finds where a writer of the opposite byte order stored
a version below 65536: nothing in the low 16 bits, something in the high 16. -/
theorem leNat_reverse_small (V : Nat) (h1 : 1 ≤ V) (h2 : V < 65536) :
    leNat (leBytes 4 V).reverse % 65536 = 0 ∧ leNat (leBytes 4 V).reverse / 65536 ≠ 0 := by
  have e : leNat (leBytes 4 V).reverse =
      V / 256 / 256 / 256 % 256 + 256 * (V / 256 / 256 % 256 +
        256 * (V / 256 % 256 + 256 * (V % 256 + 256 * 0))) := rfl
  have a : V / 256 / 256 = 0 := by omega
  rw [e, a]
  constructor
  · omega
  · omega

/-! ## The version field and the byte-order check -/

/-- Claim C1. For every buffer of exactly the record's size whose version
field stores a 32-bit value `V` with `V mod 65536 ≠ 0` or `V div 65536 = 0`,
`Get` returns a record and no error, the record is the buffer read field by
field, and its `PgControlVersion` is `V`. -/
theorem Get_version_of_valid (sys : Sys) (pgdata : String) (buf : List Byte) (V : Nat)
    (hfile : sys.holds pgdata buf) (hlen : buf.length = sizeofControlFileData)
    (hV : V < 2 ^ 32) (henc : field buf 8 4 = leBytes 4 V)
    (hok : V % 65536 ≠ 0 ∨ V / 65536 = 0) :
    Get sys pgdata = (some (ControlFileData.ofMem buf), none) ∧
      (ControlFileData.ofMem buf).PgControlVersion = V := by
  have hver : u32At buf 8 = V := u32At_of_enc buf 8 V hV henc
  refine ⟨?_, hver⟩
  rw [Get_full sys pgdata buf hfile hlen, hver]
  have hno : ¬ (V % 65536 = 0 ∧ V / 65536 ≠ 0) := by
    rintro ⟨h0, h1⟩
    rcases hok with h | h
    · exact h h0
    · exact h1 h
  rw [if_neg hno]

set_option maxRecDepth 8192 in
/-- Claim C1 at the all-zero buffer of 288 bytes, whose version is 0. -/
theorem Get_version_of_valid_witness :
    Get (sysOf (List.replicate 288 0)) "/var/lib/postgresql/data" =
        (some (ControlFileData.ofMem (List.replicate 288 0)), none) ∧
      (ControlFileData.ofMem (List.replicate 288 0)).PgControlVersion = 0 :=
  Get_version_of_valid (sysOf (List.replicate 288 0)) "/var/lib/postgresql/data"
    (List.replicate 288 0) 0 rfl (by decide) (by decide) (by decide) (by decide)

/-- Claim C2. For every buffer of the record's size whose version field
stores a value `V` with `V mod 65536 = 0` and `V div 65536 ≠ 0`, `Get`
returns no record and the error made by `errors.New("not valid byte order")`. -/
theorem Get_byte_order_error (sys : Sys) (pgdata : String) (buf : List Byte) (V : Nat)
    (hfile : sys.holds pgdata buf) (hlen : buf.length = sizeofControlFileData)
    (hV : V < 2 ^ 32) (henc : field buf 8 4 = leBytes 4 V)
    (hbad : V % 65536 = 0 ∧ V / 65536 ≠ 0) :
    Get sys pgdata = (none, some (GoError.errorsNew "not valid byte order")) := by
  have hver : u32At buf 8 = V := u32At_of_enc buf 8 V hV henc
  rw [Get_full sys pgdata buf hfile hlen, hver, if_pos hbad]
  rfl

set_option maxRecDepth 8192 in
/-- Claim C2 at a buffer whose version field stores 65536. -/
theorem Get_byte_order_error_witness :
    Get (sysOf (bufWith 65536 0)) "/var/lib/postgresql/data" =
      (none, some (GoError.errorsNew "not valid byte order")) :=
  Get_byte_order_error (sysOf (bufWith 65536 0)) "/var/lib/postgresql/data"
    (bufWith 65536 0) 65536 rfl (by decide) (by decide) (by decide) (by decide)

set_option maxRecDepth 8192 in
/-- Claim C3 fails on the code. `Get` drops the byte count `Read` returns, so
a file of 10 zero bytes gives a record (the zeroed struct) and no error, and
a file of 10 bytes with system identifier 1 and version 1300 gives a record
holding both values. -/
theorem Get_short_buffer_accepted :
    Get (sysOf (List.replicate 10 0)) "/var/lib/postgresql/data" =
        (some (ControlFileData.ofMem (List.replicate 288 0)), none) ∧
      ∃ cf, Get (sysOf [1, 0, 0, 0, 0, 0, 0, 0, 20, 5]) "/var/lib/postgresql/data" =
          (some cf, none) ∧ cf.SystemID = 1 ∧ cf.PgControlVersion = 1300 := by
  refine ⟨by decide, ControlFileData.ofMem (memOf [1, 0, 0, 0, 0, 0, 0, 0, 20, 5]), ?_, ?_, ?_⟩
  · decide
  · decide
  · decide

/-! ## `DBState` labels -/

/-- Claim C4. `DBState.String` gives 0 to 6 their seven labels and every
other integer, negative or above 6, the label "unrecognized status code";
being a total function it has a result for every integer. -/
theorem DBState_String_total :
    DBState.String 0 = "starting up" ∧
      DBState.String 1 = "shut down" ∧
      DBState.String 2 = "shut down in recovery" ∧
      DBState.String 3 = "shutting down" ∧
      DBState.String 4 = "in crash recovery" ∧
      DBState.String 5 = "in archive recovery" ∧
      DBState.String 6 = "in production" ∧
      ∀ s : Int, s < 0 ∨ 6 < s → DBState.String s = "unrecognized status code" := by
  refine ⟨by decide, by decide, by decide, by decide, by decide, by decide, by decide, ?_⟩
  intro s hs
  have h0 : s ≠ 0 := by omega
  have h1 : s ≠ 1 := by omega
  have h2 : s ≠ 2 := by omega
  have h3 : s ≠ 3 := by omega
  have h4 : s ≠ 4 := by omega
  have h5 : s ≠ 5 := by omega
  have h6 : s ≠ 6 := by omega
  simp [DBState.String, DBStartup, DBShutdowned, DBShutdownedInRecovery, DBShutdowning,
    DBInCrashRecovery, DBInArchiveRecovery, DBInProduction, h0, h1, h2, h3, h4, h5, h6]

/-- Claim C5. For every 64-bit state value `s` stored in the state field of
a buffer of the record's size whose version `V` passes the byte-order check,
`Get` returns a record and no error whatever `s` is, the record's `State` is
`s`, and its label is the label of `s`: "in production" for 6 and
"unrecognized status code" for 99. -/
theorem Get_state_label (sys : Sys) (pgdata : String) (buf : List Byte) (V : Nat) (s : Int)
    (hfile : sys.holds pgdata buf) (hlen : buf.length = sizeofControlFileData)
    (hV : V < 2 ^ 32) (henc : field buf 8 4 = leBytes 4 V)
    (hok : V % 65536 ≠ 0 ∨ V / 65536 = 0)
    (hs : -2 ^ 63 ≤ s ∧ s < 2 ^ 63) (hstate : field buf 16 8 = leBytesInt 8 s) :
    ∃ cf, Get sys pgdata = (some cf, none) ∧ cf.PgControlVersion = V ∧ cf.State = s ∧
      DBState.String cf.State = DBState.String s ∧
      (s = 6 → DBState.String cf.State = "in production") ∧
      (s = 99 → DBState.String cf.State = "unrecognized status code") := by
  have hver : u32At buf 8 = V := u32At_of_enc buf 8 V hV henc
  have hst : (ControlFileData.ofMem buf).State = s := i64At_of_enc buf 16 s hs hstate
  have hno : ¬ (V % 65536 = 0 ∧ V / 65536 ≠ 0) := by
    rintro ⟨h0, h1⟩
    rcases hok with h | h
    · exact h h0
    · exact h1 h
  refine ⟨ControlFileData.ofMem buf, ?_, hver, hst, by rw [hst], ?_, ?_⟩
  · rw [Get_full sys pgdata buf hfile hlen, hver, if_neg hno]
  · intro h6
    rw [hst, h6]
    decide
  · intro h99
    rw [hst, h99]
    decide

set_option maxRecDepth 8192 in
/-- Claim C5 at the buffer with version 1300 and state 6. -/
theorem Get_state_label_witness :
    ∃ cf, Get (sysOf (bufWith 1300 6)) "/var/lib/postgresql/data" = (some cf, none) ∧
      cf.PgControlVersion = 1300 ∧ cf.State = 6 ∧
      DBState.String cf.State = DBState.String 6 ∧
      ((6 : Int) = 6 → DBState.String cf.State = "in production") ∧
      ((6 : Int) = 99 → DBState.String cf.State = "unrecognized status code") :=
  Get_state_label (sysOf (bufWith 1300 6)) "/var/lib/postgresql/data" (bufWith 1300 6) 1300 6
    rfl (by decide) (by decide) (by decide) (by decide) (by decide) (by decide)

/-! ## Errors and outcomes -/

/-- An error `Read` returns is never the error of the byte-order check. -/
theorem Read_err_ne_errByteOrder (f : File) (b : List Byte) :
    (f.Read b).err ≠ some errByteOrder := by
  unfold File.Read
  cases hf : f.fault with
  | some e => simp [errByteOrder]
  | none =>
    simp only
    split
    · simp
    · split
      · simp [errByteOrder]
      · simp

/-- The bytes of the file are the same after `Read` as before. -/
theorem Read_file_data (f : File) (b : List Byte) : (f.Read b).file.data = f.data := by
  unfold File.Read
  cases hf : f.fault with
  | some e => rfl
  | none =>
    simp only
    split
    · rfl
    · split <;> rfl

/-- The system matters to `GetSt` only through the file at the control file's path. -/
theorem GetSt_eq_of_holds (sys : Sys) (pgdata : String) (buf : List Byte)
    (h : sys.holds pgdata buf) (p : String) :
    GetSt sys pgdata = GetSt (sysOf buf) p := by
  unfold Sys.holds at h
  simp only [GetSt, Sys.Open, h, sysOf]

/-- Claim C6. For every input `Get` returns either a record and no error, or
an error and no record: never both, never neither. -/
theorem Get_record_xor_error (sys : Sys) (pgdata : String) :
    (∃ cf, Get sys pgdata = (some cf, none)) ∨ (∃ e, Get sys pgdata = (none, some e)) := by
  unfold Get GetSt
  cases hopen : sys.Open (sys.Join [pgdata, "global", "pg_control"]) with
  | error e => exact Or.inr ⟨GoError.os e, rfl⟩
  | ok f =>
    simp only
    cases herr : (f.Read (List.replicate sizeofControlFileData 0)).err with
    | some err => exact Or.inr ⟨err, rfl⟩
    | none =>
      simp only
      split
      · exact Or.inr ⟨errByteOrder, rfl⟩
      · exact Or.inl ⟨_, rfl⟩

/-- Claim C7. When `os.Open` fails with `e`, or `Read` fails with `err`, `Get`
returns no record and that very error, which is never the byte-order error;
and every error `Get` returns is the error of `os.Open`, the error of `Read`,
or the byte-order error made after both succeeded. -/
theorem Get_source_error_verbatim (sys : Sys) (pgdata : String) :
    (∀ e, sys.Open (sys.Join [pgdata, "global", "pg_control"]) = .error e →
        Get sys pgdata = (none, some (GoError.os e)) ∧ GoError.os e ≠ errByteOrder) ∧
      (∀ f err, sys.Open (sys.Join [pgdata, "global", "pg_control"]) = .ok f →
        (f.Read (List.replicate sizeofControlFileData 0)).err = some err →
        Get sys pgdata = (none, some err) ∧ err ≠ errByteOrder) ∧
      (∀ err, (Get sys pgdata).2 = some err →
        (∃ e, sys.Open (sys.Join [pgdata, "global", "pg_control"]) = .error e ∧
            err = GoError.os e) ∨
          (∃ f, sys.Open (sys.Join [pgdata, "global", "pg_control"]) = .ok f ∧
            (f.Read (List.replicate sizeofControlFileData 0)).err = some err) ∨
          (err = errByteOrder ∧
            ∃ f, sys.Open (sys.Join [pgdata, "global", "pg_control"]) = .ok f ∧
              (f.Read (List.replicate sizeofControlFileData 0)).err = none)) := by
  refine ⟨?_, ?_, ?_⟩
  · intro e hopen
    refine ⟨?_, ?_⟩
    · simp only [Get, GetSt, hopen]
    · simp [errByteOrder]
  · intro f err hopen hread
    refine ⟨?_, ?_⟩
    · simp only [Get, GetSt, hopen, hread]
    · intro heq
      apply Read_err_ne_errByteOrder f (List.replicate sizeofControlFileData 0)
      rw [hread, heq]
  · intro err hget
    cases hopen : sys.Open (sys.Join [pgdata, "global", "pg_control"]) with
    | error e =>
      left
      simp only [Get, GetSt, hopen] at hget
      exact ⟨e, rfl, (Option.some.inj hget).symm⟩
    | ok f =>
      right
      cases hread : (f.Read (List.replicate sizeofControlFileData 0)).err with
      | some err2 =>
        left
        simp only [Get, GetSt, hopen, hread] at hget
        exact ⟨f, rfl, (Option.some.inj hget) ▸ hread⟩
      | none =>
        right
        simp only [Get, GetSt, hopen, hread] at hget
        split at hget
        · exact ⟨(Option.some.inj hget).symm, f, rfl, hread⟩
        · exact absurd hget (by simp)

/-- Claim C7 where the control file does not exist: `Get` hands back the
error of `os.Open` as it came. -/
theorem Get_source_error_verbatim_witness :
    Get (sysMissing ⟨"open /srv/pg/global/pg_control: no such file or directory"⟩) "/srv/pg" =
        (none, some (GoError.os
          ⟨"open /srv/pg/global/pg_control: no such file or directory"⟩)) ∧
      GoError.os ⟨"open /srv/pg/global/pg_control: no such file or directory"⟩ ≠
        errByteOrder :=
  (Get_source_error_verbatim
    (sysMissing ⟨"open /srv/pg/global/pg_control: no such file or directory"⟩) "/srv/pg").1
    ⟨"open /srv/pg/global/pg_control: no such file or directory"⟩ rfl

/-- Claim C8. Two decodings of the same buffer, in whatever system and under
whatever path it is found, have the same outcome (equal records, or the same
error), and when `Get` is done the file it read holds the bytes it held
before. -/
theorem Get_deterministic_readonly (sys₁ sys₂ : Sys) (p₁ p₂ : String) (buf : List Byte)
    (h₁ : sys₁.holds p₁ buf) (h₂ : sys₂.holds p₂ buf) :
    Get sys₁ p₁ = Get sys₂ p₂ ∧ (GetSt sys₁ p₁).2.map File.data = some buf := by
  refine ⟨?_, ?_⟩
  · rw [Get, Get, GetSt_eq_of_holds sys₁ p₁ buf h₁ p₂, GetSt_eq_of_holds sys₂ p₂ buf h₂ p₂]
  · unfold Sys.holds at h₁
    have hd := Read_file_data ⟨buf, 0, none⟩ (List.replicate sizeofControlFileData 0)
    simp only [GetSt, Sys.Open, h₁]
    cases hread : (File.Read ⟨buf, 0, none⟩ (List.replicate sizeofControlFileData 0)).err with
    | some err => simp only [Option.map, hd]
    | none =>
      simp only
      split <;> simp only [Option.map, hd]

set_option maxRecDepth 8192 in
/-- Claim C8 at the buffer with version 1300 and state 6, read through two
different paths. -/
theorem Get_deterministic_readonly_witness :
    Get (sysOf (bufWith 1300 6)) "/var/lib/postgresql/data" =
        Get (sysOf (bufWith 1300 6)) "/srv/pg" ∧
      (GetSt (sysOf (bufWith 1300 6)) "/var/lib/postgresql/data").2.map File.data =
        some (bufWith 1300 6) :=
  Get_deterministic_readonly (sysOf (bufWith 1300 6)) (sysOf (bufWith 1300 6))
    "/var/lib/postgresql/data" "/srv/pg" (bufWith 1300 6) rfl rfl

/-! ## What the byte-order check catches -/

/-- Claim C9. For every version `V` from 1 to 65535: a buffer of the record's
size whose version field holds the four bytes of `V` in reversed order reads
as a value with low 16 bits zero and high 16 bits not zero, and `Get` fails
on it with the byte-order error; a buffer holding `V` in the reader's order
decodes with `PgControlVersion = V`. -/
theorem Get_swapped_small_version (sys₁ sys₂ : Sys) (p₁ p₂ : String)
    (swapped native : List Byte) (V : Nat) (hV : 1 ≤ V ∧ V < 65536)
    (hs : sys₁.holds p₁ swapped) (hslen : swapped.length = sizeofControlFileData)
    (hsenc : field swapped 8 4 = (leBytes 4 V).reverse)
    (hn : sys₂.holds p₂ native) (hnlen : native.length = sizeofControlFileData)
    (hnenc : field native 8 4 = leBytes 4 V) :
    (u32At swapped 8 % 65536 = 0 ∧ u32At swapped 8 / 65536 ≠ 0) ∧
      Get sys₁ p₁ = (none, some errByteOrder) ∧
      Get sys₂ p₂ = (some (ControlFileData.ofMem native), none) ∧
      (ControlFileData.ofMem native).PgControlVersion = V := by
  have hrev : u32At swapped 8 % 65536 = 0 ∧ u32At swapped 8 / 65536 ≠ 0 := by
    rw [u32At, hsenc]
    exact leNat_reverse_small V hV.1 hV.2
  have hnver : u32At native 8 = V := u32At_of_enc native 8 V (by omega) hnenc
  have hno : ¬ (V % 65536 = 0 ∧ V / 65536 ≠ 0) := by omega
  refine ⟨hrev, ?_, ?_, hnver⟩
  · rw [Get_full sys₁ p₁ swapped hs hslen, if_pos hrev]
  · rw [Get_full sys₂ p₂ native hn hnlen, hnver, if_neg hno]

set_option maxRecDepth 8192 in
/-- Claim C9 at version 1300: its bytes reversed read as 335872000, which the
check rejects, and in the reader's order they read as 1300. -/
theorem Get_swapped_small_version_witness :
    (u32At (bufWith 335872000 0) 8 % 65536 = 0 ∧ u32At (bufWith 335872000 0) 8 / 65536 ≠ 0) ∧
      Get (sysOf (bufWith 335872000 0)) "/var/lib/postgresql/data" =
        (none, some errByteOrder) ∧
      Get (sysOf (bufWith 1300 0)) "/var/lib/postgresql/data" =
        (some (ControlFileData.ofMem (bufWith 1300 0)), none) ∧
      (ControlFileData.ofMem (bufWith 1300 0)).PgControlVersion = 1300 :=
  Get_swapped_small_version (sysOf (bufWith 335872000 0)) (sysOf (bufWith 1300 0))
    "/var/lib/postgresql/data" "/var/lib/postgresql/data" (bufWith 335872000 0)
    (bufWith 1300 0) 1300 (by decide) rfl (by decide) (by decide) rfl (by decide) (by decide)

set_option maxRecDepth 8192 in
/-- Claim C10. The byte-order check misses some swaps: the version 16909060
(bytes 4, 3, 2, 1) reversed is 67305985 (bytes 1, 2, 3, 4), a different value
that passes the check, and `Get` decodes a buffer of the record's size
holding it, returning `PgControlVersion = 67305985`. -/
theorem Get_swap_undetected :
    ∃ V W : Nat, V < 2 ^ 32 ∧ leBytes 4 W = (leBytes 4 V).reverse ∧ W ≠ V ∧
      (W % 65536 ≠ 0 ∨ W / 65536 = 0) ∧
      (bufWith W 0).length = sizeofControlFileData ∧
      field (bufWith W 0) 8 4 = leBytes 4 W ∧
      ∃ cf, Get (sysOf (bufWith W 0)) "/var/lib/postgresql/data" = (some cf, none) ∧
        cf.PgControlVersion = W := by
  refine ⟨16909060, 67305985, by decide, by decide, by decide, by decide, by decide,
    by decide, ControlFileData.ofMem (bufWith 67305985 0), ?_, ?_⟩
  · decide
  · decide

/-! ## The layout of the record -/

/-- The slice handed to `Read` keeps its length, whatever the file holds. -/
theorem Read_length (f : File) (b : List Byte) : (f.Read b).b.length = b.length := by
  unfold File.Read
  cases hf : f.fault with
  | some e => rfl
  | none =>
    simp only
    split
    · rfl
    · split
      · rfl
      · simp only [List.length_append, List.length_drop, List.length_take]
        omega

/-- The names and offsets of `slotsFrom` are the layout `layoutFrom` computes. -/
theorem slotsFrom_layoutFrom (off : Nat) (fs : List FieldDecl) :
    (slotsFrom off fs).map (fun s => (s.name, s.off)) = layoutFrom off fs := by
  induction fs generalizing off with
  | nil => rfl
  | cons f fs ih => simp only [slotsFrom, layoutFrom, List.map_cons, ih]

/-- The widths of `slotsFrom` are the declared widths, one slot a field. -/
theorem slotsFrom_sizes (off : Nat) (fs : List FieldDecl) :
    (slotsFrom off fs).map (fun s => s.size) = fs.map (fun f => f.size) := by
  induction fs generalizing off with
  | nil => rfl
  | cons f fs ih => simp only [slotsFrom, List.map_cons, ih]

set_option maxRecDepth 100000 in
/-- Claim C11. The layout is fixed in size and in offsets. The fields of
basic type of `ControlFileData` and its nested `CheckPoint` are the 49 listed
here with their offsets and widths. Laying them out in declaration order, each
at the next offset aligned to its own width, gives these same places, and
they are the places Go's layout (`layoutFrom`, which `offsetOf` reads) gives
the declared fields: every declared field has its slot, at the offset and of
the width `ControlFileData.ofMem` reads it. Every field's byte range ends
before the range of every later field begins (so the ranges are disjoint and
increase in declaration order), is not empty, starts at a multiple of its
width and lies inside the record; the fields of `CheckPoint` lie inside its
88 bytes, `CheckPointCopy` starts at offset 40 and the record is 288 bytes.
None of it depends on the bytes read: the struct's memory is 288 bytes after
`Read` on any file. -/
theorem ControlFileData_layout_fixed :
    leafSlots =
      [
        ⟨"SystemID", 0, 8⟩,
        ⟨"PgControlVersion", 8, 4⟩,
        ⟨"CatalogVersionNo", 12, 4⟩,
        ⟨"State", 16, 8⟩,
        ⟨"Time", 24, 8⟩,
        ⟨"CheckPoint", 32, 8⟩,
        ⟨"CheckPointCopy.Redo", 40, 8⟩,
        ⟨"CheckPointCopy.ThisTimeLineID", 48, 4⟩,
        ⟨"CheckPointCopy.PrevTimeLineID", 52, 4⟩,
        ⟨"CheckPointCopy.FullPageWrites", 56, 1⟩,
        ⟨"CheckPointCopy.NextXid", 64, 8⟩,
        ⟨"CheckPointCopy.NextOid", 72, 4⟩,
        ⟨"CheckPointCopy.NextMulti", 76, 4⟩,
        ⟨"CheckPointCopy.NextMultiOffset", 80, 4⟩,
        ⟨"CheckPointCopy.OldestXid", 84, 4⟩,
        ⟨"CheckPointCopy.OldestXidDB", 88, 4⟩,
        ⟨"CheckPointCopy.OldestMulti", 92, 4⟩,
        ⟨"CheckPointCopy.OldestMultiDB", 96, 4⟩,
        ⟨"CheckPointCopy.Time", 104, 8⟩,
        ⟨"CheckPointCopy.OldestCommitTsXid", 112, 4⟩,
        ⟨"CheckPointCopy.NewestCommitTsXid", 116, 4⟩,
        ⟨"CheckPointCopy.OldestActiveXid", 120, 4⟩,
        ⟨"UnloggedLSN", 128, 8⟩,
        ⟨"MinRecoveryPoint", 136, 8⟩,
        ⟨"MinRecoveryPointTLI", 144, 4⟩,
        ⟨"BackupStartPoint", 152, 8⟩,
        ⟨"BackupEndPoint", 160, 8⟩,
        ⟨"BackupEndRequired", 168, 1⟩,
        ⟨"WalLevel", 176, 8⟩,
        ⟨"WalLogHints", 184, 1⟩,
        ⟨"MaxConnections", 192, 8⟩,
        ⟨"MaxWorkerProcesses", 200, 8⟩,
        ⟨"MaxWalSenders", 208, 8⟩,
        ⟨"MaxPreparedXacts", 216, 8⟩,
        ⟨"MaxLocksPerXact", 224, 8⟩,
        ⟨"TrackCommitTimestamp", 232, 1⟩,
        ⟨"MaxAlign", 236, 4⟩,
        ⟨"FloatFormat", 240, 8⟩,
        ⟨"Blcksz", 248, 4⟩,
        ⟨"RelsegSize", 252, 4⟩,
        ⟨"XlogBlcksz", 256, 4⟩,
        ⟨"XlogSegSize", 260, 4⟩,
        ⟨"NameDataLen", 264, 4⟩,
        ⟨"IndexMaxKeys", 268, 4⟩,
        ⟨"ToastMaxChunkSize", 272, 4⟩,
        ⟨"Loblksize", 276, 4⟩,
        ⟨"Float4ByVal", 280, 1⟩,
        ⟨"Float8ByVal", 281, 1⟩,
        ⟨"DataChecksumVersion", 284, 4⟩ ] ∧
      specLayout = leafSlots ∧
      (∀ f ∈ flatFields, f.align = f.size) ∧
      (∀ (off : Nat) (fs : List FieldDecl),
        (slotsFrom off fs).map (fun s => (s.name, s.off)) = layoutFrom off fs ∧
          (slotsFrom off fs).map (fun s => s.size) = fs.map (fun f => f.size)) ∧
      (∀ f ∈ controlFileDataFields, f.name ≠ "CheckPointCopy" →
        (⟨f.name, offsetOf controlFileDataFields f.name,
          widthOf controlFileDataFields f.name⟩ : Slot) ∈ leafSlots) ∧
      (∀ g ∈ checkPointFields,
        (⟨"CheckPointCopy." ++ g.name,
          offsetOf controlFileDataFields "CheckPointCopy" + offsetOf checkPointFields g.name,
          widthOf checkPointFields g.name⟩ : Slot) ∈ leafSlots) ∧
      controlFileDataFields.length = 34 ∧ checkPointFields.length = 16 ∧
      leafSlots.length = 49 ∧
      List.Pairwise (fun a b : Slot => a.off + a.size ≤ b.off) leafSlots ∧
      (∀ s ∈ leafSlots,
        0 < s.size ∧ s.off % s.size = 0 ∧ s.off + s.size ≤ sizeofControlFileData) ∧
      (∀ s ∈ slotsFrom 0 checkPointFields, s.off + s.size ≤ structSize checkPointFields) ∧
      structSize checkPointFields = 88 ∧
      widthOf controlFileDataFields "CheckPointCopy" = 88 ∧
      offsetOf controlFileDataFields "CheckPointCopy" = 40 ∧
      sizeofControlFileData = 288 ∧
      (∀ f : File, (f.Read (List.replicate sizeofControlFileData 0)).b.length = 288) ∧
      (∀ mem : List Byte, ControlFileData.ofMem mem = ControlFileData.ofLayout mem) := by
  refine ⟨by decide, by decide, by decide, ?_, by decide, by decide, by decide, by decide,
    by decide, by decide, by decide, by decide, by decide, by decide, by decide, by decide,
    ?_, ?_⟩
  · intro off fs
    exact ⟨slotsFrom_layoutFrom off fs, slotsFrom_sizes off fs⟩
  · intro f
    rw [Read_length, List.length_replicate]
    decide
  · intro mem
    rfl

/-! ## The version field alone decides the byte-order check -/

/-- Four bytes of a field lying inside the memory, one by one. -/
theorem field_four (l : List Byte) (off : Nat) (h : off + 4 ≤ l.length) :
    field l off 4 =
      [l.getD off 0, l.getD (off + 1) 0, l.getD (off + 2) 0, l.getD (off + 3) 0] := by
  induction off generalizing l with
  | zero =>
    match l, h with
    | a :: b :: c :: d :: rest, _ => simp [field]
  | succ n ih =>
    match l, h with
    | x :: xs, h =>
      have h2 : n + 4 ≤ xs.length := by simpa [Nat.add_right_comm] using h
      have := ih xs h2
      simp only [field, List.drop_succ_cons] at this ⊢
      rw [this]
      simp [Nat.add_right_comm]

/-- Claim C12. In a buffer of the record's size `PgControlVersion` is the
32-bit little-endian value of bytes 8 to 11, so for two such buffers that
agree on bytes 8 to 11, whatever their other bytes, `Get` either returns a
record on both or fails with the byte-order error on both. -/
theorem Get_depends_on_version_bytes (sys₁ sys₂ : Sys) (p₁ p₂ : String)
    (buf₁ buf₂ : List Byte)
    (h₁ : sys₁.holds p₁ buf₁) (hlen₁ : buf₁.length = sizeofControlFileData)
    (h₂ : sys₂.holds p₂ buf₂) (hlen₂ : buf₂.length = sizeofControlFileData)
    (hagree : buf₁.getD 8 0 = buf₂.getD 8 0 ∧ buf₁.getD 9 0 = buf₂.getD 9 0 ∧
      buf₁.getD 10 0 = buf₂.getD 10 0 ∧ buf₁.getD 11 0 = buf₂.getD 11 0) :
    (ControlFileData.ofMem buf₁).PgControlVersion =
        (buf₁.getD 8 0).val + 256 * (buf₁.getD 9 0).val + 65536 * (buf₁.getD 10 0).val +
          16777216 * (buf₁.getD 11 0).val ∧
      (ControlFileData.ofMem buf₁).PgControlVersion < 2 ^ 32 ∧
      (ControlFileData.ofMem buf₂).PgControlVersion =
        (ControlFileData.ofMem buf₁).PgControlVersion ∧
      ((Get sys₁ p₁ = (some (ControlFileData.ofMem buf₁), none) ∧
          Get sys₂ p₂ = (some (ControlFileData.ofMem buf₂), none)) ∨
        (Get sys₁ p₁ = (none, some errByteOrder) ∧
          Get sys₂ p₂ = (none, some errByteOrder))) := by
  have hl₁ : 8 + 4 ≤ buf₁.length := by
    rw [hlen₁, sizeofControlFileData_eq]
    decide
  have hl₂ : 8 + 4 ≤ buf₂.length := by
    rw [hlen₂, sizeofControlFileData_eq]
    decide
  have hv₁ : u32At buf₁ 8 = (buf₁.getD 8 0).val + 256 * (buf₁.getD 9 0).val +
      65536 * (buf₁.getD 10 0).val + 16777216 * (buf₁.getD 11 0).val := by
    rw [u32At, field_four buf₁ 8 hl₁]
    simp only [leNat, Nat.reduceAdd]
    omega
  have hf : field buf₂ 8 4 = field buf₁ 8 4 := by
    rw [field_four buf₁ 8 hl₁, field_four buf₂ 8 hl₂]
    obtain ⟨a, b, c, d⟩ := hagree
    simp only [Nat.reduceAdd, a, b, c, d]
  have hv₂ : u32At buf₂ 8 = u32At buf₁ 8 := by rw [u32At, u32At, hf]
  have hlt : u32At buf₁ 8 < 2 ^ 32 := by
    rw [hv₁]
    have a := (buf₁.getD 8 0).isLt
    have b := (buf₁.getD 9 0).isLt
    have c := (buf₁.getD 10 0).isLt
    have d := (buf₁.getD 11 0).isLt
    omega
  refine ⟨hv₁, hlt, hv₂, ?_⟩
  rw [Get_full sys₁ p₁ buf₁ h₁ hlen₁, Get_full sys₂ p₂ buf₂ h₂ hlen₂, hv₂]
  by_cases hc : u32At buf₁ 8 % 65536 = 0 ∧ u32At buf₁ 8 / 65536 ≠ 0
  · rw [if_pos hc, if_pos hc]
    exact Or.inr ⟨rfl, rfl⟩
  · rw [if_neg hc, if_neg hc]
    exact Or.inl ⟨rfl, rfl⟩

set_option maxRecDepth 8192 in
/-- Claim C12 at two buffers with version 1300 that differ in their state
field (6 and 99): both decode. -/
theorem Get_depends_on_version_bytes_witness :
    (ControlFileData.ofMem (bufWith 1300 6)).PgControlVersion =
        ((bufWith 1300 6).getD 8 0).val + 256 * ((bufWith 1300 6).getD 9 0).val +
          65536 * ((bufWith 1300 6).getD 10 0).val +
          16777216 * ((bufWith 1300 6).getD 11 0).val ∧
      (ControlFileData.ofMem (bufWith 1300 6)).PgControlVersion < 2 ^ 32 ∧
      (ControlFileData.ofMem (bufWith 1300 99)).PgControlVersion =
        (ControlFileData.ofMem (bufWith 1300 6)).PgControlVersion ∧
      ((Get (sysOf (bufWith 1300 6)) "/var/lib/postgresql/data" =
            (some (ControlFileData.ofMem (bufWith 1300 6)), none) ∧
          Get (sysOf (bufWith 1300 99)) "/srv/pg" =
            (some (ControlFileData.ofMem (bufWith 1300 99)), none)) ∨
        (Get (sysOf (bufWith 1300 6)) "/var/lib/postgresql/data" =
            (none, some errByteOrder) ∧
          Get (sysOf (bufWith 1300 99)) "/srv/pg" = (none, some errByteOrder))) :=
  Get_depends_on_version_bytes (sysOf (bufWith 1300 6)) (sysOf (bufWith 1300 99))
    "/var/lib/postgresql/data" "/srv/pg" (bufWith 1300 6) (bufWith 1300 99)
    rfl (by decide) rfl (by decide) (by decide)

/-! ## Labels identify the state -/

/-- The label of a value below 0 or above 6. -/
theorem DBState_String_outside (s : Int) (hs : s < 0 ∨ 6 < s) :
    DBState.String s = "unrecognized status code" := by
  have h0 : s ≠ 0 := by omega
  have h1 : s ≠ 1 := by omega
  have h2 : s ≠ 2 := by omega
  have h3 : s ≠ 3 := by omega
  have h4 : s ≠ 4 := by omega
  have h5 : s ≠ 5 := by omega
  have h6 : s ≠ 6 := by omega
  simp [DBState.String, DBStartup, DBShutdowned, DBShutdownedInRecovery, DBShutdowning,
    DBInCrashRecovery, DBInArchiveRecovery, DBInProduction, h0, h1, h2, h3, h4, h5, h6]

/-- Claim C13. `DBState.String` is injective on the seven declared values 0
to 6, none of them has the label "unrecognized status code", and a value has
that label exactly when it lies outside 0 to 6. -/
theorem DBState_String_identifies :
    (∀ a b : Int, 0 ≤ a ∧ a ≤ 6 → 0 ≤ b ∧ b ≤ 6 →
        DBState.String a = DBState.String b → a = b) ∧
      (∀ s : Int, 0 ≤ s ∧ s ≤ 6 → DBState.String s ≠ "unrecognized status code") ∧
      (∀ s : Int, DBState.String s = "unrecognized status code" ↔ s < 0 ∨ 6 < s) := by
  have hin : ∀ s : Int, 0 ≤ s ∧ s ≤ 6 →
      DBState.String s ≠ "unrecognized status code" := by
    rintro s ⟨h0, h6⟩
    interval_cases s <;> decide
  refine ⟨?_, hin, ?_⟩
  · rintro a b ⟨ha0, ha6⟩ ⟨hb0, hb6⟩
    interval_cases a <;> interval_cases b <;> decide
  · intro s
    constructor
    · intro h
      by_contra hout
      exact hin s (by omega) h
    · exact DBState_String_outside s

/-- Claim C13 at the states 1 and 2: their labels differ. -/
theorem DBState_String_identifies_witness :
    DBState.String 1 ≠ DBState.String 2 :=
  fun h => absurd (DBState_String_identifies.1 1 2 (by decide) (by decide) h) (by decide)

end controldata
